import Mathlib

/-!
Shallow embedding of the Armel linear (bump-pointer) arena allocator.

Sources embedded here:
  - src/includes/Armel/armel.h : the Armel struct, flags, arl_align_up,
    arl_new_local, arl_alloc, arl_reset (inline version, no zero-fill),
    arl_offset, arl_rewind_to, arl_used, arl_remaining.
  - src/src/armel.c : arl_new (the owned constructor, declared in the
    header as arl_new_custom), arl_free, and the out-of-line legacy
    arl_reset (which zero-fills under ARL_ZEROS); the legacy reset is
    embedded in namespace ArmelC because it conflicts with the inline
    header definition of the same name.

Machine model: addresses and sizes are C uintptr_t / size_t values,
modelled as Nat with explicit reduction modulo WORD = 2^64 wherever the
C code can wrap (pointer additions inside arl_alloc, unsigned
subtraction, the bit-mask round-up). The C bitwise AND is Nat.land and
the C complement ~x on a 64-bit operand is WORD - 1 - x. NULL is the
address 0. Byte memory is a total function from addresses to byte
values; memset is the only writer the embedded code uses.

Control flow: abort() / ARL_FATAL / ARL_ASSERT_FATAL / a failed
ARL_CHECK terminate the process; that outcome is the CRes.fatal (or
AllocRes.fatal) constructor. The two `return NULL` statements in
arl_alloc are AllocRes.nullFail, which carries the unchanged arena and
memory, exactly as the C early return leaves them.
-/

/-- Word size of the target: uintptr_t / size_t arithmetic is modulo 2^64. -/
def WORD : Nat := 2 ^ 64

theorem word_val : WORD = 18446744073709551616 := by norm_num [WORD]

/-- ARL_NOFLAG from armel.h. -/
def ARL_NOFLAG : Nat := 0

/-- ARL_SOFTFAIL from armel.h: return NULL instead of aborting. -/
def ARL_SOFTFAIL : Nat := 0x01

/-- ARL_ZEROS from armel.h: zero-fill memory during allocation. -/
def ARL_ZEROS : Nat := 0x02

/-- The Armel struct from armel.h. The C field `end` is a Lean keyword,
so it is called end_ here. -/
structure Armel where
  base : Nat
  cursor : Nat
  end_ : Nat
  alignment : Nat
  mask : Nat
  flags : Nat
deriving DecidableEq

/-- Byte memory: a total map from addresses to byte values. -/
def Mem : Type := Nat → Nat

/-- C memset(ptr, v, n): writes v to every address in [ptr, ptr + n). -/
def memset (m : Mem) (ptr v n : Nat) : Mem :=
  fun a => if ptr ≤ a ∧ a < ptr + n then v else m a

/-- Outcome of a C call that either returns normally or aborts the process. -/
inductive CRes (α : Type) where
  | ok : α → CRes α
  | fatal : CRes α
deriving DecidableEq

/-- Outcome of arl_alloc: a returned pointer with the updated arena and
memory, a NULL return (arena and memory unchanged, as in the C early
returns), or process termination. -/
inductive AllocRes where
  | ok (ret : Nat) (st : Armel) (mem : Mem)
  | nullFail (st : Armel) (mem : Mem)
  | fatal

/-- C unsigned subtraction x - y on uintptr_t operands (wraps modulo WORD). -/
def usub (x y : Nat) : Nat := (x + WORD - y) % WORD

/-- arl_align_up from armel.h:
  size_t a = align - 1; return (size + a) & ~a;
with size_t decrement, addition and complement taken modulo WORD. -/
def arl_align_up (size align : Nat) : Nat :=
  let a := (align + (WORD - 1)) % WORD
  ((size + a) % WORD) &&& (WORD - 1 - a)

/-- arl_new_local from armel.h (borrowed constructor): asserts the buffer
is not NULL, checks `alignment == 0 || (alignment & (alignment - 1)) != 0`
fatally, then fills the struct with mask = alignment - 1 and
end = buffer + size (no rounding of size). -/
def arl_new_local (buffer size alignment flags : Nat) : CRes Armel :=
  if buffer = 0 then CRes.fatal
  else if alignment = 0 ∨ alignment &&& (alignment - 1) ≠ 0 then CRes.fatal
  else CRes.ok
    { base := buffer, cursor := buffer, end_ := buffer + size,
      alignment := alignment, mask := alignment - 1, flags := flags }

/-- arl_new from src/src/armel.c (the owned constructor; its signature is
the one the header declares as arl_new_custom). It asserts only
`alignment != 0` (ARL_ASSERT_FATAL), pads the size with arl_align_up,
obtains memory from arl_sys_alloc — modelled by the parameter ptr, since
arl_sys_alloc never returns on failure — and sets
mask = ~(alignment - 1). Under ARL_ZEROS it memsets the whole padded
region to zero. -/
def arl_new (size alignment flags ptr : Nat) (mem : Mem) : CRes (Armel × Mem) :=
  if alignment = 0 then CRes.fatal
  else
    CRes.ok
      ({ base := ptr, cursor := ptr, end_ := ptr + arl_align_up size alignment,
         alignment := alignment, mask := WORD - 1 - (alignment - 1), flags := flags },
       if flags &&& ARL_ZEROS ≠ 0 then memset mem ptr 0 (arl_align_up size alignment) else mem)

/-- arl_free from src/src/armel.c: releases the region (arl_sys_free is a
no-op in this memory model) and clears base, cursor, end, flags and
alignment; the mask field is not cleared by the C code. -/
def arl_free (st : Armel) : Armel :=
  { st with base := 0, cursor := 0, end_ := 0, flags := 0, alignment := 0 }

/-- arl_reset from armel.h (the inline version every includer gets): moves
the cursor back to base. It performs no memory write, ARL_ZEROS or not. -/
def arl_reset (st : Armel) (mem : Mem) : Armel × Mem :=
  ({ st with cursor := st.base }, mem)

namespace ArmelC

/-- arl_reset from src/src/armel.c (legacy out-of-line version, in conflict
with the inline one in armel.h): under ARL_ZEROS it first memsets the
whole region [base, base + (end - base)) to zero, then moves the cursor
back to base. -/
def arl_reset (st : Armel) (mem : Mem) : Armel × Mem :=
  ({ st with cursor := st.base },
   if st.flags &&& ARL_ZEROS ≠ 0 then memset mem st.base 0 (usub st.end_ st.base) else mem)

end ArmelC

/-- The aligned cursor computed by arl_alloc in armel.h:
  start = (cursor + mask) & ~mask. -/
def alignedCursor (st : Armel) : Nat :=
  ((st.cursor + st.mask) % WORD) &&& (WORD - 1 - st.mask)

/-- arl_alloc from armel.h. Destroyed arena (base == NULL): NULL under
ARL_SOFTFAIL, else ARL_FATAL. Then start = (cursor + mask) & ~mask,
stop = start + size; if stop > end: NULL under ARL_SOFTFAIL, else abort.
Otherwise memset [start, start + size) to zero when ARL_ZEROS is set,
advance cursor to stop and return start. -/
def arl_alloc (st : Armel) (mem : Mem) (size : Nat) : AllocRes :=
  if st.base = 0 then
    if st.flags &&& ARL_SOFTFAIL ≠ 0 then AllocRes.nullFail st mem else AllocRes.fatal
  else if (alignedCursor st + size) % WORD > st.end_ then
    if st.flags &&& ARL_SOFTFAIL ≠ 0 then AllocRes.nullFail st mem else AllocRes.fatal
  else
    AllocRes.ok (alignedCursor st) { st with cursor := (alignedCursor st + size) % WORD }
      (if st.flags &&& ARL_ZEROS ≠ 0 then memset mem (alignedCursor st) 0 size else mem)

/-- arl_offset from armel.h: (uintptr_t)cursor - (uintptr_t)base. -/
def arl_offset (st : Armel) : Nat := usub st.cursor st.base

/-- arl_rewind_to from armel.h: limit = end - base; ARL_CHECK aborts when
offset > limit; otherwise cursor = base + offset. -/
def arl_rewind_to (st : Armel) (offset : Nat) : CRes Armel :=
  if offset ≤ usub st.end_ st.base then
    CRes.ok { st with cursor := (st.base + offset) % WORD }
  else CRes.fatal

/-- arl_used from armel.h: (uintptr_t)cursor - (uintptr_t)base. -/
def arl_used (st : Armel) : Nat := usub st.cursor st.base

/-- arl_remaining from armel.h: end - arl_align_up(cursor, alignment). -/
def arl_remaining (st : Armel) : Nat :=
  usub st.end_ (arl_align_up st.cursor st.alignment)

/-- The all-zero byte memory, used as the initial memory in concrete runs. -/
def mem0 : Mem := fun _ => 0

/-- A memory holding one nonzero byte at address 4096, used to observe
which operations really write memory. -/
def mem1 : Mem := fun a => if a = 4096 then 1 else 0

/-! ### Arithmetic facts about the machine-level operations -/

theorem tb_div_two_pow (y k j : Nat) : Nat.testBit (y / 2 ^ k) j = Nat.testBit y (k + j) := by
  rw [Nat.testBit_to_div_mod, Nat.testBit_to_div_mod, Nat.div_div_eq_div_mul, ← Nat.pow_add]

/-- The C expression y & ~(2^k - 1) on a 64-bit word clears the k low bits:
it rounds y down to a multiple of 2^k. -/
theorem land_word_sub_two_pow (y k : Nat) (hy : y < WORD) (hk : k ≤ 64) :
    y &&& (WORD - 2 ^ k) = y - y % 2 ^ k := by
  show y &&& (2 ^ 64 - 2 ^ k) = y - y % 2 ^ k
  have hy' : y < 2 ^ 64 := hy
  have hmul : (2 : Nat) ^ k * 2 ^ (64 - k) = 2 ^ 64 := by
    rw [← Nat.pow_add]
    congr 1
    omega
  have hsplit : (2 : Nat) ^ 64 - 2 ^ k = 2 ^ k * (2 ^ (64 - k) - 1) := by
    have h2 : (2 : Nat) ^ k * (2 ^ (64 - k) - 1) = 2 ^ k * 2 ^ (64 - k) - 2 ^ k :=
      Nat.mul_pred (2 ^ k) (2 ^ (64 - k))
    omega
  have hy2 : y - y % 2 ^ k = 2 ^ k * (y / 2 ^ k) := by
    have := Nat.div_add_mod y (2 ^ k)
    omega
  rw [hy2, hsplit]
  apply Nat.eq_of_testBit_eq
  intro i
  rw [Nat.testBit_and, Nat.testBit_mul_pow_two, Nat.testBit_mul_pow_two,
    Nat.testBit_two_pow_sub_one, tb_div_two_pow]
  by_cases hik : i ≥ k
  · have e1 : k + (i - k) = i := by omega
    by_cases hi : i < 64
    · have e2 : i - k < 64 - k := by omega
      simp [hik, e1, e2]
    · have hbf : y.testBit i = false :=
        Nat.testBit_lt_two_pow
          (lt_of_lt_of_le hy' (Nat.pow_le_pow_right (by norm_num) (by omega)))
      have e2 : ¬ (i - k < 64 - k) := by omega
      simp [hik, e1, e2, hbf]
  · simp [hik]

theorem usub_eq_sub {x y : Nat} (h1 : y ≤ x) (h2 : x < WORD) : usub x y = x - y := by
  show (x + WORD - y) % WORD = x - y
  rw [word_val] at h2 ⊢
  omega

/-- arl_align_up at a power-of-two alignment rounds size up to the next
multiple of that power of two. -/
theorem arl_align_up_two_pow (size k : Nat) (hk : k ≤ 64) (hs : size + 2 ^ k < WORD) :
    arl_align_up size (2 ^ k) =
      size + (2 ^ k - 1) - (size + (2 ^ k - 1)) % 2 ^ k := by
  have hp : (1 : Nat) ≤ 2 ^ k := Nat.one_le_two_pow
  have hPW : (2 : Nat) ^ k ≤ WORD := by
    show (2 : Nat) ^ k ≤ 2 ^ 64
    exact Nat.pow_le_pow_right (by norm_num) hk
  show ((size + (2 ^ k + (WORD - 1)) % WORD) % WORD) &&&
        (WORD - 1 - (2 ^ k + (WORD - 1)) % WORD) =
      size + (2 ^ k - 1) - (size + (2 ^ k - 1)) % 2 ^ k
  have ha : (2 ^ k + (WORD - 1)) % WORD = 2 ^ k - 1 := by
    rw [word_val] at hPW ⊢
    omega
  rw [ha]
  have hb : (size + (2 ^ k - 1)) % WORD = size + (2 ^ k - 1) := by
    rw [word_val] at hs ⊢
    omega
  have hc : WORD - 1 - (2 ^ k - 1) = WORD - 2 ^ k := by
    rw [word_val] at hPW ⊢
    omega
  rw [hb, hc, land_word_sub_two_pow _ k (by rw [word_val] at hs ⊢; omega) hk]

theorem two_pow_dvd_align_up (size k : Nat) (hk : k ≤ 64) (hs : size + 2 ^ k < WORD) :
    2 ^ k ∣ arl_align_up size (2 ^ k) := by
  rw [arl_align_up_two_pow size k hk hs]
  refine ⟨(size + (2 ^ k - 1)) / 2 ^ k, ?_⟩
  have := Nat.div_add_mod (size + (2 ^ k - 1)) (2 ^ k)
  omega

/-- The aligned cursor, for an arena whose mask is 2^k - 1 (the invariant
established by arl_new_local), rounds the cursor up to a multiple of 2^k. -/
theorem alignedCursor_two_pow (st : Armel) (k : Nat) (hm : st.mask = 2 ^ k - 1)
    (hk : k ≤ 64) (hc : st.cursor + 2 ^ k < WORD) :
    alignedCursor st =
      st.cursor + (2 ^ k - 1) - (st.cursor + (2 ^ k - 1)) % 2 ^ k := by
  have hp : (1 : Nat) ≤ 2 ^ k := Nat.one_le_two_pow
  have hPW : (2 : Nat) ^ k ≤ WORD := by
    show (2 : Nat) ^ k ≤ 2 ^ 64
    exact Nat.pow_le_pow_right (by norm_num) hk
  show ((st.cursor + st.mask) % WORD) &&& (WORD - 1 - st.mask) = _
  rw [hm]
  have hb : (st.cursor + (2 ^ k - 1)) % WORD = st.cursor + (2 ^ k - 1) := by
    rw [word_val] at hc ⊢
    omega
  have hd : WORD - 1 - (2 ^ k - 1) = WORD - 2 ^ k := by
    rw [word_val] at hPW ⊢
    omega
  rw [hb, hd, land_word_sub_two_pow _ k (by rw [word_val] at hc ⊢; omega) hk]

/-- The aligned cursor never exceeds one word. -/
theorem alignedCursor_lt_word (st : Armel) : alignedCursor st < WORD := by
  have h1 : alignedCursor st ≤ (st.cursor + st.mask) % WORD := Nat.and_le_left
  have h2 : (st.cursor + st.mask) % WORD < WORD := Nat.mod_lt _ (by rw [word_val]; omega)
  omega

/-- On a live arena, an allocation whose stop does not pass end succeeds and
returns the aligned cursor, advancing the cursor to stop. -/
theorem arl_alloc_ok (st : Armel) (mem : Mem) (size : Nat)
    (hlive : st.base ≠ 0)
    (hfit : (alignedCursor st + size) % WORD ≤ st.end_) :
    arl_alloc st mem size =
      AllocRes.ok (alignedCursor st) { st with cursor := (alignedCursor st + size) % WORD }
        (if st.flags &&& ARL_ZEROS ≠ 0 then memset mem (alignedCursor st) 0 size else mem) := by
  unfold arl_alloc
  rw [if_neg hlive, if_neg (by omega : ¬ (alignedCursor st + size) % WORD > st.end_)]

/-! ### Concrete arena states used by witnesses and counterexamples -/

/-- A live arena over [4096, 4128), alignment 8, cursor at the unaligned
address 4100, no flags. -/
def stLive : Armel := ⟨4096, 4100, 4128, 8, 7, ARL_NOFLAG⟩

/-- A full 16-byte arena with ARL_SOFTFAIL. -/
def stSoft : Armel := ⟨4096, 4096, 4112, 16, 15, ARL_SOFTFAIL⟩

/-- A full 16-byte arena without ARL_SOFTFAIL. -/
def stHard : Armel := ⟨4096, 4096, 4112, 16, 15, ARL_NOFLAG⟩

/-- A live arena over [4096, 4128) with ARL_ZEROS. -/
def stZeros : Armel := ⟨4096, 4096, 4128, 8, 7, ARL_ZEROS⟩

/-- The destroyed sentinel with ARL_SOFTFAIL re-established by hand, as
test_arl_free does after arl_free. -/
def stDead : Armel := ⟨0, 0, 0, 0, WORD - 8, ARL_SOFTFAIL⟩

/-! ### The claims -/

/-- C10: arl_offset and arl_used return the same value — both C bodies are
the expression (uintptr_t)cursor - (uintptr_t)base — and neither mutates
the arena, which the embedding states by typing both as pure functions
from Armel to Nat. -/
theorem c10_offset_eq_used (st : Armel) :
    arl_offset st = arl_used st ∧ arl_offset st = usub st.cursor st.base :=
  ⟨rfl, rfl⟩

/-- C9: on any arena with base ≤ cursor ≤ end (and addresses inside one
word), arl_rewind_to (arl_offset st) passes the ARL_CHECK bound and puts
the cursor exactly where it was: a no-op on the whole state. -/
theorem c9_mark_rewind_noop (st : Armel) (h1 : st.base ≤ st.cursor)
    (h2 : st.cursor ≤ st.end_) (h3 : st.end_ < WORD) :
    arl_rewind_to st (arl_offset st) = CRes.ok st := by
  have hcw : st.cursor < WORD := lt_of_le_of_lt h2 h3
  have ho : arl_offset st = st.cursor - st.base := usub_eq_sub h1 hcw
  have hl : usub st.end_ st.base = st.end_ - st.base := usub_eq_sub (le_trans h1 h2) h3
  have hc : (st.base + (st.cursor - st.base)) % WORD = st.cursor := by
    rw [word_val] at hcw ⊢
    omega
  unfold arl_rewind_to
  rw [ho, hl, if_pos (by omega), hc]

/-- C9 witness: mark-then-rewind on the concrete arena stLive. -/
theorem c9_witness :
    stLive.base ≤ stLive.cursor ∧ stLive.cursor ≤ stLive.end_ ∧ stLive.end_ < WORD ∧
    arl_rewind_to stLive (arl_offset stLive) = CRes.ok stLive :=
  ⟨by decide, by decide, by decide,
   c9_mark_rewind_noop stLive (by decide) (by decide) (by decide)⟩

/-- C6: on a live arena whose mask holds the constructor invariant
mask = alignment - 1, a fitting allocation returns exactly
start = (cursor + (alignment-1)) & ~(alignment-1) and advances the cursor
to start + size; a zero-byte request leaves the cursor at start, so it
consumes only alignment padding and no body bytes. -/
theorem c6_alloc_formula (st : Armel) (mem : Mem) (size : Nat)
    (hlive : st.base ≠ 0) (hmask : st.mask = st.alignment - 1)
    (hfit : (alignedCursor st + size) % WORD ≤ st.end_) :
    alignedCursor st =
        ((st.cursor + (st.alignment - 1)) % WORD) &&& (WORD - 1 - (st.alignment - 1)) ∧
    arl_alloc st mem size =
        AllocRes.ok (alignedCursor st)
          { st with cursor := (alignedCursor st + size) % WORD }
          (if st.flags &&& ARL_ZEROS ≠ 0 then memset mem (alignedCursor st) 0 size else mem) ∧
    (size = 0 → (alignedCursor st + size) % WORD = alignedCursor st) := by
  refine ⟨?_, arl_alloc_ok st mem size hlive hfit, ?_⟩
  · unfold alignedCursor
    rw [hmask]
  · intro h
    subst h
    have := alignedCursor_lt_word st
    rw [Nat.add_zero]
    exact Nat.mod_eq_of_lt this

/-- C6 witness: allocating 4 bytes on stLive (cursor 4100, alignment 8)
returns 4104 and moves the cursor to 4108. -/
theorem c6_witness :
    stLive.base ≠ 0 ∧ stLive.mask = stLive.alignment - 1 ∧
    (alignedCursor stLive + 4) % WORD ≤ stLive.end_ ∧
    (alignedCursor stLive =
        ((stLive.cursor + (stLive.alignment - 1)) % WORD) &&&
          (WORD - 1 - (stLive.alignment - 1)) ∧
     arl_alloc stLive mem0 4 =
        AllocRes.ok (alignedCursor stLive)
          { stLive with cursor := (alignedCursor stLive + 4) % WORD }
          (if stLive.flags &&& ARL_ZEROS ≠ 0 then
            memset mem0 (alignedCursor stLive) 0 4 else mem0) ∧
     (4 = 0 → (alignedCursor stLive + 4) % WORD = alignedCursor stLive)) :=
  ⟨by decide, by decide, by decide,
   c6_alloc_formula stLive mem0 4 (by decide) (by decide) (by decide)⟩

/-- C7: on a live arena, when the aligned start plus the requested size
passes end, arl_alloc returns NULL with the arena (hence cursor and
used()) unchanged under ARL_SOFTFAIL, and aborts the process without it. -/
theorem c7_exhaustion_policy (st : Armel) (mem : Mem) (size : Nat)
    (hlive : st.base ≠ 0)
    (hover : (alignedCursor st + size) % WORD > st.end_) :
    (st.flags &&& ARL_SOFTFAIL ≠ 0 → arl_alloc st mem size = AllocRes.nullFail st mem) ∧
    (st.flags &&& ARL_SOFTFAIL = 0 → arl_alloc st mem size = AllocRes.fatal) := by
  constructor
  · intro hsf
    unfold arl_alloc
    rw [if_neg hlive, if_pos hover, if_pos hsf]
  · intro hsf
    unfold arl_alloc
    rw [if_neg hlive, if_pos hover, if_neg (by simp [hsf])]

/-- C7 witness: requesting 32 bytes from the full 16-byte arenas stSoft
and stHard. -/
theorem c7_witness :
    stSoft.base ≠ 0 ∧ (alignedCursor stSoft + 32) % WORD > stSoft.end_ ∧
    stSoft.flags &&& ARL_SOFTFAIL ≠ 0 ∧
    arl_alloc stSoft mem0 32 = AllocRes.nullFail stSoft mem0 ∧
    stHard.base ≠ 0 ∧ (alignedCursor stHard + 32) % WORD > stHard.end_ ∧
    stHard.flags &&& ARL_SOFTFAIL = 0 ∧
    arl_alloc stHard mem0 32 = AllocRes.fatal :=
  ⟨by decide, by decide, by decide,
   (c7_exhaustion_policy stSoft mem0 32 (by decide) (by decide)).1 (by decide),
   by decide, by decide, by decide,
   (c7_exhaustion_policy stHard mem0 32 (by decide) (by decide)).2 (by decide)⟩

/-- C8: when ARL_ZEROS is set, every byte of a freshly returned region
[ret, ret + size) reads zero in the memory arl_alloc hands back, before any
caller write. -/
theorem c8_zeros_alloc_reads_zero (st : Armel) (mem : Mem) (size ret : Nat)
    (st2 : Armel) (mem2 : Mem)
    (hz : st.flags &&& ARL_ZEROS ≠ 0)
    (h : arl_alloc st mem size = AllocRes.ok ret st2 mem2) :
    ∀ a, ret ≤ a → a < ret + size → mem2 a = 0 := by
  intro a ha1 ha2
  unfold arl_alloc at h
  by_cases hb : st.base = 0
  · rw [if_pos hb] at h
    split_ifs at h
  · rw [if_neg hb] at h
    by_cases hov : (alignedCursor st + size) % WORD > st.end_
    · rw [if_pos hov] at h
      split_ifs at h
    · rw [if_neg hov, if_pos hz] at h
      cases h
      simp only [memset]
      rw [if_pos ⟨ha1, ha2⟩]

/-- C8 witness: allocating 8 bytes from stZeros over the memory mem1 that
holds a nonzero byte at 4096; the returned region starts at 4096 and that
byte now reads zero. -/
theorem c8_witness :
    stZeros.flags &&& ARL_ZEROS ≠ 0 ∧
    arl_alloc stZeros mem1 8 =
      AllocRes.ok 4096 { stZeros with cursor := 4104 } (memset mem1 4096 0 8) ∧
    mem1 4096 = 1 ∧
    (memset mem1 4096 0 8) 4096 = 0 :=
  ⟨by decide, rfl, by decide,
   c8_zeros_alloc_reads_zero stZeros mem1 8 4096 { stZeros with cursor := 4104 }
     (memset mem1 4096 0 8) (by decide) rfl 4096 (by decide) (by decide)⟩

/-- C1 counterexample: an arena created by the owned constructor WITH
ARL_SOFTFAIL and then destroyed makes the next arl_alloc abort — not
return NULL — because arl_free clears the flags field together with the
pointers. -/
theorem c1_counterexample :
    arl_new 32 8 ARL_SOFTFAIL 4096 mem0 =
      CRes.ok ({ base := 4096, cursor := 4096, end_ := 4128, alignment := 8,
                 mask := WORD - 8, flags := ARL_SOFTFAIL }, mem0) ∧
    ARL_SOFTFAIL &&& ARL_SOFTFAIL ≠ 0 ∧
    arl_alloc
      (arl_free { base := 4096, cursor := 4096, end_ := 4128, alignment := 8,
                  mask := WORD - 8, flags := ARL_SOFTFAIL }) mem0 8 = AllocRes.fatal :=
  ⟨rfl, by decide, rfl⟩

/-- C1 (amended): what governs allocation on a destroyed arena is the flags
field AT CALL TIME, and arl_free zeroes that field, so alloc-after-free
always terminates the process no matter which flags the arena was created
with; NULL comes back only if the caller re-establishes ARL_SOFTFAIL on the
dead arena (exactly what the test test_arl_free does by hand). -/
theorem c1_destroyed_policy (st : Armel) (mem : Mem) (size : Nat) :
    arl_alloc (arl_free st) mem size = AllocRes.fatal ∧
    (∀ st2 : Armel, st2.base = 0 → st2.flags &&& ARL_SOFTFAIL ≠ 0 →
        arl_alloc st2 mem size = AllocRes.nullFail st2 mem) := by
  constructor
  · unfold arl_alloc arl_free
    rw [if_pos rfl, if_neg (by simp)]
  · intro st2 hb hsf
    unfold arl_alloc
    rw [if_pos hb, if_pos hsf]

/-- C1 witness: the freed stSoft arena aborts on alloc; the hand-patched
sentinel stDead (base 0, ARL_SOFTFAIL set) returns NULL. -/
theorem c1_witness :
    arl_alloc (arl_free stSoft) mem0 8 = AllocRes.fatal ∧
    stDead.base = 0 ∧ stDead.flags &&& ARL_SOFTFAIL ≠ 0 ∧
    arl_alloc stDead mem0 8 = AllocRes.nullFail stDead mem0 :=
  ⟨(c1_destroyed_policy stSoft mem0 8).1, by decide, by decide,
   (c1_destroyed_policy stSoft mem0 8).2 stDead (by decide) (by decide)⟩

/-- C4: the owned constructor arl_new in armel.c asserts only
`alignment != 0`, so alignment 3 — not a power of two — is accepted and
construction returns normally, while the borrowed constructor
arl_new_local rejects both 0 and 3 fatally. This contradicts the claim,
the header documentation of arl_new_custom, and the repository test
test_invalid_alignment_abort, which expects the owned constructor to
abort on alignment 3. -/
theorem c4_alignment_check_gap (size flags ptr : Nat) (mem : Mem) :
    (∃ stm, arl_new size 3 flags ptr mem = CRes.ok stm) ∧
    arl_new size 0 flags ptr mem = CRes.fatal ∧
    arl_new_local 1 size 3 flags = CRes.fatal ∧
    arl_new_local 1 size 0 flags = CRes.fatal := by
  refine ⟨⟨(Armel.mk ptr ptr (ptr + arl_align_up size 3) 3 (WORD - 1 - (3 - 1)) flags,
      if flags &&& ARL_ZEROS ≠ 0 then memset mem ptr 0 (arl_align_up size 3) else mem), ?_⟩,
    ?_, ?_, ?_⟩
  · unfold arl_new
    rw [if_neg (by norm_num)]
  · unfold arl_new
    rw [if_pos rfl]
  · unfold arl_new_local
    rw [if_neg (by norm_num), if_pos (by decide)]
  · unfold arl_new_local
    rw [if_neg (by norm_num), if_pos (Or.inl rfl)]


/-- C2 counterexample: the concrete scenario (capacity 32, alignment 8,
NOFLAG, two 4-byte allocations) gives first address base, second address
base+8 and remaining() = 16 as claimed, but used() = 12, not 16: the
cursor is left at start + size = base + 12 and padding before a next
allocation is not counted yet. -/

theorem c2_counterexample :
    arl_new_local 4096 32 8 ARL_NOFLAG =
      CRes.ok ⟨4096, 4096, 4128, 8, 7, ARL_NOFLAG⟩ ∧
    arl_alloc ⟨4096, 4096, 4128, 8, 7, ARL_NOFLAG⟩ mem0 4 =
      AllocRes.ok 4096 ⟨4096, 4100, 4128, 8, 7, ARL_NOFLAG⟩ mem0 ∧
    arl_alloc ⟨4096, 4100, 4128, 8, 7, ARL_NOFLAG⟩ mem0 4 =
      AllocRes.ok 4104 ⟨4096, 4108, 4128, 8, 7, ARL_NOFLAG⟩ mem0 ∧
    arl_used ⟨4096, 4108, 4128, 8, 7, ARL_NOFLAG⟩ = 12 ∧
    (12 : Nat) ≠ 16 ∧
    arl_remaining ⟨4096, 4108, 4128, 8, 7, ARL_NOFLAG⟩ = 16 :=
  ⟨by decide, rfl, rfl, by decide, by decide, by decide⟩

/-- C2 (amended): for any 8-aligned nonzero base, the scenario yields
first address base, second address base + 8 (padded to 8 despite the
4-byte payload), remaining() = 16, and used() = 12 — the lazily aligned
cursor sits at base + 12, so the 4 padding bytes before a third
allocation are not yet counted in used(). -/
theorem c2_amended (base : Nat) (mem : Mem) (h0 : base ≠ 0) (hal : base % 8 = 0)
    (hw : base + 32 < WORD) :
    arl_new_local base 32 8 ARL_NOFLAG =
      CRes.ok ⟨base, base, base + 32, 8, 7, ARL_NOFLAG⟩ ∧
    arl_alloc ⟨base, base, base + 32, 8, 7, ARL_NOFLAG⟩ mem 4 =
      AllocRes.ok base ⟨base, base + 4, base + 32, 8, 7, ARL_NOFLAG⟩ mem ∧
    arl_alloc ⟨base, base + 4, base + 32, 8, 7, ARL_NOFLAG⟩ mem 4 =
      AllocRes.ok (base + 8) ⟨base, base + 12, base + 32, 8, 7, ARL_NOFLAG⟩ mem ∧
    arl_used ⟨base, base + 12, base + 32, 8, 7, ARL_NOFLAG⟩ = 12 ∧
    arl_remaining ⟨base, base + 12, base + 32, 8, 7, ARL_NOFLAG⟩ = 16 := by
  have e1 : alignedCursor ⟨base, base, base + 32, 8, 7, ARL_NOFLAG⟩ = base := by
    rw [alignedCursor_two_pow _ 3 (by norm_num) (by omega)
      (by show base + 2 ^ 3 < WORD; rw [word_val]; rw [word_val] at hw; omega)]
    show base + (2 ^ 3 - 1) - (base + (2 ^ 3 - 1)) % 2 ^ 3 = base
    norm_num
    omega
  have e2 : alignedCursor ⟨base, base + 4, base + 32, 8, 7, ARL_NOFLAG⟩ = base + 8 := by
    rw [alignedCursor_two_pow _ 3 (by norm_num) (by omega)
      (by show base + 4 + 2 ^ 3 < WORD; rw [word_val]; rw [word_val] at hw; omega)]
    show base + 4 + (2 ^ 3 - 1) - (base + 4 + (2 ^ 3 - 1)) % 2 ^ 3 = base + 8
    norm_num
    omega
  refine ⟨?_, ?_, ?_, ?_, ?_⟩
  · unfold arl_new_local
    rw [if_neg h0, if_neg (by decide)]
  · rw [arl_alloc_ok _ mem 4 h0
      (by rw [e1]; show (base + 4) % WORD ≤ base + 32; rw [word_val]; rw [word_val] at hw; omega)]
    rw [e1, if_neg (by simp [ARL_NOFLAG]),
      show (base + 4) % WORD = base + 4 by rw [word_val]; rw [word_val] at hw; omega]
  · rw [arl_alloc_ok _ mem 4 h0
      (by rw [e2]; show (base + 8 + 4) % WORD ≤ base + 32; rw [word_val]; rw [word_val] at hw; omega)]
    rw [e2, if_neg (by simp [ARL_NOFLAG]),
      show (base + 8 + 4) % WORD = base + 12 by rw [word_val]; rw [word_val] at hw; omega]
  · show usub (base + 12) base = 12
    rw [usub_eq_sub (by omega) (by rw [word_val]; rw [word_val] at hw; omega)]
    omega
  · show usub (base + 32) (arl_align_up (base + 12) 8) = 16
    have h3 := arl_align_up_two_pow (base + 12) 3 (by omega)
      (by show base + 12 + 2 ^ 3 < WORD; rw [word_val]; rw [word_val] at hw; omega)
    norm_num at h3
    have ha : arl_align_up (base + 12) 8 = base + 16 := by omega
    rw [ha, usub_eq_sub (by omega) (by rw [word_val]; rw [word_val] at hw; omega)]
    omega

/-- C2 witness: the amended scenario run at base 8192. -/
theorem c2_witness :
    (8192 : Nat) ≠ 0 ∧ (8192 : Nat) % 8 = 0 ∧ (8192 : Nat) + 32 < WORD ∧
    (arl_new_local 8192 32 8 ARL_NOFLAG =
        CRes.ok ⟨8192, 8192, 8192 + 32, 8, 7, ARL_NOFLAG⟩ ∧
     arl_alloc ⟨8192, 8192, 8192 + 32, 8, 7, ARL_NOFLAG⟩ mem0 4 =
        AllocRes.ok 8192 ⟨8192, 8192 + 4, 8192 + 32, 8, 7, ARL_NOFLAG⟩ mem0 ∧
     arl_alloc ⟨8192, 8192 + 4, 8192 + 32, 8, 7, ARL_NOFLAG⟩ mem0 4 =
        AllocRes.ok (8192 + 8) ⟨8192, 8192 + 12, 8192 + 32, 8, 7, ARL_NOFLAG⟩ mem0 ∧
     arl_used ⟨8192, 8192 + 12, 8192 + 32, 8, 7, ARL_NOFLAG⟩ = 12 ∧
     arl_remaining ⟨8192, 8192 + 12, 8192 + 32, 8, 7, ARL_NOFLAG⟩ = 16) :=
  ⟨by decide, by decide, by decide,
   c2_amended 8192 mem0 (by decide) (by decide) (by decide)⟩

/-- C3 counterexample: a borrowed arena wrapping a 10-byte buffer at
alignment 8 is constructed with end - base = 10, which is not a multiple
of the alignment: arl_new_local does not round the supplied size. -/
theorem c3_counterexample :
    arl_new_local 4096 10 8 ARL_NOFLAG =
      CRes.ok ⟨4096, 4096, 4106, 8, 7, ARL_NOFLAG⟩ ∧
    (⟨4096, 4096, 4106, 8, 7, ARL_NOFLAG⟩ : Armel).alignment = 8 ∧
    ¬ (8 ∣ (⟨4096, 4096, 4106, 8, 7, ARL_NOFLAG⟩ : Armel).end_
          - (⟨4096, 4096, 4106, 8, 7, ARL_NOFLAG⟩ : Armel).base) :=
  ⟨by decide, by decide, by decide⟩

/-- C3 (amended): only OWNED arenas are guaranteed a region length that is
a multiple of a power-of-two alignment (arl_new pads the size with
arl_align_up); base and end are never changed by allocate, reset or
rewind, so the property is preserved by every operation. A borrowed arena
keeps end - base equal to the exact caller-supplied size, which need not
be a multiple of the alignment. -/
theorem c3_amended (size k flags ptr bsize bflags : Nat) (mem : Mem)
    (hk : k ≤ 64) (hsz : size + 2 ^ k < WORD) :
    (∃ st m, arl_new size (2 ^ k) flags ptr mem = CRes.ok (st, m) ∧
        st.end_ - st.base = arl_align_up size (2 ^ k) ∧
        2 ^ k ∣ (st.end_ - st.base)) ∧
    (∀ st : Armel, ∀ ret, ∀ st2 : Armel, ∀ m2 sz,
        arl_alloc st mem sz = AllocRes.ok ret st2 m2 →
        st2.base = st.base ∧ st2.end_ = st.end_) ∧
    (∀ st : Armel, (arl_reset st mem).1.base = st.base ∧ (arl_reset st mem).1.end_ = st.end_) ∧
    (∀ st st2 : Armel, ∀ off, arl_rewind_to st off = CRes.ok st2 →
        st2.base = st.base ∧ st2.end_ = st.end_) ∧
    (∀ buffer : Nat, ∀ st2 : Armel, arl_new_local buffer bsize (2 ^ k) bflags = CRes.ok st2 →
        st2.end_ - st2.base = bsize) := by
  refine ⟨?_, ?_, ?_, ?_, ?_⟩
  · refine ⟨Armel.mk ptr ptr (ptr + arl_align_up size (2 ^ k)) (2 ^ k)
      (WORD - 1 - (2 ^ k - 1)) flags,
      (if flags &&& ARL_ZEROS ≠ 0 then memset mem ptr 0 (arl_align_up size (2 ^ k)) else mem),
      ?_, ?_, ?_⟩
    · unfold arl_new
      rw [if_neg (Nat.two_pow_pos k).ne']
    · show ptr + arl_align_up size (2 ^ k) - ptr = arl_align_up size (2 ^ k)
      omega
    · show 2 ^ k ∣ ptr + arl_align_up size (2 ^ k) - ptr
      rw [Nat.add_sub_cancel_left]
      exact two_pow_dvd_align_up size k hk hsz
  · intro st ret st2 m2 sz h
    unfold arl_alloc at h
    by_cases hb : st.base = 0
    · rw [if_pos hb] at h
      split_ifs at h
    · rw [if_neg hb] at h
      by_cases hov : (alignedCursor st + sz) % WORD > st.end_
      · rw [if_pos hov] at h
        split_ifs at h
      · rw [if_neg hov] at h
        cases h
        exact ⟨rfl, rfl⟩
  · exact fun st => ⟨rfl, rfl⟩
  · intro st st2 off h
    unfold arl_rewind_to at h
    split_ifs at h
    cases h
    exact ⟨rfl, rfl⟩
  · intro buffer st2 h
    unfold arl_new_local at h
    split_ifs at h
    cases h
    show buffer + bsize - buffer = bsize
    omega

/-- C3 witness: the owned part run with size 10, alignment 8 = 2^3,
base address 4096, and the borrowed part with supplied size 10. -/
theorem c3_witness :
    (3 : Nat) ≤ 64 ∧ 10 + 2 ^ 3 < WORD ∧
    ((∃ st m, arl_new 10 (2 ^ 3) ARL_NOFLAG 4096 mem0 = CRes.ok (st, m) ∧
        st.end_ - st.base = arl_align_up 10 (2 ^ 3) ∧
        2 ^ 3 ∣ (st.end_ - st.base)) ∧
     (∀ st : Armel, ∀ ret, ∀ st2 : Armel, ∀ m2 sz,
        arl_alloc st mem0 sz = AllocRes.ok ret st2 m2 →
        st2.base = st.base ∧ st2.end_ = st.end_) ∧
     (∀ st : Armel, (arl_reset st mem0).1.base = st.base ∧
        (arl_reset st mem0).1.end_ = st.end_) ∧
     (∀ st st2 : Armel, ∀ off, arl_rewind_to st off = CRes.ok st2 →
        st2.base = st.base ∧ st2.end_ = st.end_) ∧
     (∀ buffer : Nat, ∀ st2 : Armel, arl_new_local buffer 10 (2 ^ 3) ARL_NOFLAG = CRes.ok st2 →
        st2.end_ - st2.base = 10)) :=
  ⟨by decide, by decide,
   c3_amended 10 3 ARL_NOFLAG 4096 10 ARL_NOFLAG mem0 (by decide) (by decide)⟩

/-- A used arena over [4096, 4128) with ARL_ZEROS, cursor at 4112. -/
def stZeroUsed : Armel := ⟨4096, 4112, 4128, 8, 7, ARL_ZEROS⟩

/-- C5 counterexample: on an ARL_ZEROS arena the inline arl_reset of
armel.h moves the cursor back to base but writes no memory at all: the
byte at base, inside the readable region, still reads 1 after reset, so
the whole-region re-zero claimed for reset does not happen. -/
theorem c5_counterexample :
    stZeroUsed.flags &&& ARL_ZEROS ≠ 0 ∧
    (arl_reset stZeroUsed mem1).1.cursor = stZeroUsed.base ∧
    stZeroUsed.base ≤ 4096 ∧ 4096 < stZeroUsed.end_ ∧
    mem1 4096 = 1 ∧
    (arl_reset stZeroUsed mem1).2 4096 = 1 :=
  ⟨by decide, by decide, by decide, by decide, by decide, by decide⟩

/-- C5 (amended): the live arl_reset (the inline one in armel.h, the only
one a caller of the header can link against) moves the cursor to base and
leaves memory untouched even under ARL_ZEROS; the whole-region re-zero
described by the spec exists only in the superseded out-of-line arl_reset
of src/src/armel.c, for which it does hold over the entire region
[base, end). -/
theorem c5_amended (st : Armel) (mem : Mem) (hbe : st.base ≤ st.end_) (hew : st.end_ < WORD) :
    (arl_reset st mem).1 = { st with cursor := st.base } ∧
    (arl_reset st mem).2 = mem ∧
    (st.flags &&& ARL_ZEROS ≠ 0 →
      ∀ a, st.base ≤ a → a < st.end_ → (ArmelC.arl_reset st mem).2 a = 0) := by
  refine ⟨rfl, rfl, ?_⟩
  intro hz a ha1 ha2
  show (if st.flags &&& ARL_ZEROS ≠ 0 then memset mem st.base 0 (usub st.end_ st.base) else mem) a
      = 0
  rw [if_pos hz]
  have hu : usub st.end_ st.base = st.end_ - st.base := usub_eq_sub hbe hew
  show (if st.base ≤ a ∧ a < st.base + usub st.end_ st.base then 0 else mem a) = 0
  rw [hu, if_pos ⟨ha1, by omega⟩]

/-- C5 witness: the amended statement run on stZeroUsed over mem1. -/
theorem c5_witness :
    stZeroUsed.base ≤ stZeroUsed.end_ ∧ stZeroUsed.end_ < WORD ∧
    ((arl_reset stZeroUsed mem1).1 = { stZeroUsed with cursor := stZeroUsed.base } ∧
     (arl_reset stZeroUsed mem1).2 = mem1 ∧
     (stZeroUsed.flags &&& ARL_ZEROS ≠ 0 →
       ∀ a, stZeroUsed.base ≤ a → a < stZeroUsed.end_ →
         (ArmelC.arl_reset stZeroUsed mem1).2 a = 0)) :=
  ⟨by decide, by decide, c5_amended stZeroUsed mem1 (by decide) (by decide)⟩
